import Mathlib

/-!
Verification of the Tool Capability Registry & Execution Engine of the
Saino-AI repository, as a shallow embedding in Lean 4.

The embedding follows the Python source:

* `src/tools/base.py` — `AccessLevel`, `ToolMeta`, `BaseTool.__init_subclass__`
  (registration into the class-level registry), `BaseTool.execute`
  (validation + execution + envelope normalisation), `BaseTool.get_declaration`,
  and the `is_ai_enabled` / `is_ui_enabled` predicates.
* `src/core/tool_manager.py` — `ToolManager.load_tools` (directory discovery,
  `sys.modules`-guarded module loading).

Python dictionaries are modelled as association lists with dict-assignment
semantics (replace in place on an existing key, append otherwise; lookup is
first match).  A pydantic parameter model class is modelled by its two
behaviours the engine uses: construction-with-validation (which either raises
a `ValidationError` carrying a list of per-field errors, or yields a validated
instance whose `model_dump()` is a field mapping) and `model_json_schema()`.
An async tool implementation `_execute` is modelled as a function from its
keyword arguments to the ordered list of chunks it emitted through the
streaming callback before finishing, paired with either its returned value or
the description of the exception it raised.  Exceptions in the Python code
are modelled with `Except`; an embedded operation that is a total Lean
function returning an envelope therefore witnesses "never raises".
-/

/-- JSON-like values: the payloads travelling through keyword-argument
mappings, tool results and schemas. -/
inductive Value where
  | null
  | bool (b : Bool)
  | int (n : Int)
  | str (s : String)
  | list (items : List Value)
  | obj (fields : List (String × Value))

/-- Lookup in an association list, first match; models Python `dict.get`. -/
def alistLookup {α : Type} : List (String × α) → String → Option α
  | [], _ => none
  | (k, v) :: rest, n => if k = n then some v else alistLookup rest n

/-- Insertion into an association list with Python dict-assignment semantics:
replace in place when the key is present, append otherwise. -/
def alistInsert {α : Type} : List (String × α) → String → α → List (String × α)
  | [], n, t => [(n, t)]
  | (k, v) :: rest, n, t =>
      if k = n then (k, t) :: rest else (k, v) :: alistInsert rest n t

/-- One per-field entry of a pydantic `ValidationError.errors()` list:
the field location and the failure message. -/
structure FieldError where
  loc : String
  msg : String
deriving DecidableEq

/-- Rendering of a `ValidationError.errors()` list into the text interpolated
into the error envelope message by `execute` (the f-string
`"پارامترهای نامعتبر: \x7berrors\x7d"` in `src/tools/base.py`). -/
def fieldErrorsRepr (errs : List FieldError) : String :=
  String.intercalate "; " (errs.map fun e => e.loc ++ ": " ++ e.msg)

/-- Model of a pydantic parameter model class (`META.parameters`): calling it
on the keyword arguments either raises a `ValidationError` carrying the
enumerated per-field errors, or returns a validated instance whose
`model_dump()` is the field mapping handed to `_execute`; `model_json_schema()`
is the structural schema used by `get_declaration`. -/
structure ParamModel where
  validate : List (String × Value) → Except (List FieldError) (List (String × Value))
  json_schema : Value

/-- Access levels of a tool, from `AccessLevel` in `src/tools/base.py`. -/
inductive AccessLevel where
  | AI_ONLY
  | UI_ONLY
  | BOTH
  | DISABLED
deriving DecidableEq

/-- Tool metadata, from `ToolMeta` in `src/tools/base.py`; fields keep the
source names and defaults (`parameters` defaults to `None`, `access_level`
to `AI_ONLY`). -/
structure ToolMeta where
  name : String
  description : String
  parameters : Option ParamModel := none
  access_level : AccessLevel := AccessLevel.AI_ONLY
  ui_label : Option String := none
  ui_icon : Option String := none
  ui_render_type : String := "button"
  has_dedicated_page : Bool := false
  page_endpoint : Option String := none

/-- Model of an async `_execute` implementation: given the keyword arguments
it was called with, it emits an ordered list of chunks through the streaming
callback and then either returns a value or raises an exception with the
given description (chunks listed were delivered before the raise). -/
def Impl : Type := List (String × Value) → List String × Except String Value

/-- The uniform result envelope: the dictionaries
`\x7b"status": "success", "result": ...\x7d` and
`\x7b"status": "error", "message": ...\x7d` returned by `execute`. -/
inductive Envelope where
  | success (result : Value)
  | error (message : String)

/-- Observable outcome of one `execute` call: the chunks delivered through
the streaming callback in order, the returned envelope, and how many times
`_execute` was invoked (the call-count instrumentation the spec's testable
properties ask for). -/
structure ExecResult where
  chunks : List String
  envelope : Envelope
  implCalls : Nat

/-- Embedding of `BaseTool.execute` from `src/tools/base.py`.  The branches
mirror the source: a `None` META yields an error envelope; absent
`META.parameters` runs `_execute(**kwargs)` directly under a catch-all
handler; present `META.parameters` first constructs the pydantic model from
the kwargs (a `ValidationError` becomes an error envelope carrying the
enumerated field errors and `_execute` is not called), then runs
`_execute(**validated.model_dump())`; any exception raised by `_execute`
becomes an error envelope carrying `str(e)`. -/
def execute (meta? : Option ToolMeta) (impl : Impl)
    (kwargs : List (String × Value)) : ExecResult :=
  match meta? with
  | none => ⟨[], Envelope.error "ابزار فاقد متادیتای META است.", 0⟩
  | some m =>
    match m.parameters with
    | none =>
      match impl kwargs with
      | (cs, Except.ok v) => ⟨cs, Envelope.success v, 1⟩
      | (cs, Except.error e) => ⟨cs, Envelope.error e, 1⟩
    | some p =>
      match p.validate kwargs with
      | Except.error errs =>
          ⟨[], Envelope.error ("پارامترهای نامعتبر: " ++ fieldErrorsRepr errs), 0⟩
      | Except.ok validated =>
        match impl validated with
        | (cs, Except.ok v) => ⟨cs, Envelope.success v, 1⟩
        | (cs, Except.error e) => ⟨cs, Envelope.error e, 1⟩

/-- The `google.generativeai` `FunctionDeclaration` triple built by
`get_declaration`. -/
structure FunctionDeclaration where
  name : String
  description : String
  parameters : Value

/-- Embedding of `BaseTool.get_declaration`: raises `AttributeError` when
META is `None` (modelled as `Except.error`), returns `None` for `UI_ONLY`
and `DISABLED` tools, and otherwise builds the declaration triple, with
`model_json_schema()` when a parameter model is present and the empty
schema `\x7b\x7d` otherwise. -/
def get_declaration (meta? : Option ToolMeta) :
    Except String (Option FunctionDeclaration) :=
  match meta? with
  | none => Except.error "META برای این ابزار تعریف نشده است."
  | some m =>
    if m.access_level = AccessLevel.UI_ONLY ∨ m.access_level = AccessLevel.DISABLED then
      Except.ok none
    else
      Except.ok (some ⟨m.name, m.description,
        match m.parameters with
        | some p => p.json_schema
        | none => Value.obj []⟩)

/-- Embedding of the `is_ai_enabled` property: truthy exactly when META is
set and its access level is `AI_ONLY` or `BOTH`. -/
def is_ai_enabled : Option ToolMeta → Bool
  | none => false
  | some m =>
    match m.access_level with
    | AccessLevel.AI_ONLY => true
    | AccessLevel.BOTH => true
    | _ => false

/-- Embedding of the `is_ui_enabled` property: truthy exactly when META is
set and its access level is `UI_ONLY` or `BOTH`. -/
def is_ui_enabled : Option ToolMeta → Bool
  | none => false
  | some m =>
    match m.access_level with
    | AccessLevel.UI_ONLY => true
    | AccessLevel.BOTH => true
    | _ => false

/-- The value of a class-level `META` attribute: either an actual `ToolMeta`
instance (so that `isinstance(cls.META, ToolMeta)` holds) or some other
value (so that it fails the `isinstance` check). -/
inductive MetaAttr where
  | toolMeta (m : ToolMeta)
  | other (v : Value)

/-- Model of a subclass of `BaseTool`: its class name, its `META` attribute
when the class has one (`none` models `not hasattr(cls, 'META')`), and its
`_execute` implementation. -/
structure ToolClass where
  className : String
  META : Option MetaAttr
  impl : Impl

/-- The `ToolMeta` of a class, when its `META` attribute exists and passes
the `isinstance(cls.META, ToolMeta)` check. -/
def clsMeta (cls : ToolClass) : Option ToolMeta :=
  match cls.META with
  | some (MetaAttr.toolMeta m) => some m
  | _ => none

/-- The process-wide tool registry `BaseTool.registry`, a Python dict keyed
by tool name. -/
def Registry : Type := List (String × ToolClass)

/-- Registry lookup (`registry[name]` / `registry.get(name)`). -/
def registryLookup (r : Registry) (n : String) : Option ToolClass :=
  alistLookup r n

/-- Registry insertion (`registry[name] = cls`), with dict-assignment
semantics. -/
def registryInsert (r : Registry) (n : String) (t : ToolClass) : Registry :=
  alistInsert r n t

/-- Embedding of `BaseTool.__init_subclass__` from `src/tools/base.py`: a
subclass is inserted under `cls.META.name` only when it carries a `META`
attribute that is a `ToolMeta` instance and whose access level is not
`DISABLED`; in every other case the registry is left unchanged (the source
only logs). -/
def initSubclass (r : Registry) (cls : ToolClass) : Registry :=
  match clsMeta cls with
  | some m =>
      if m.access_level ≠ AccessLevel.DISABLED then registryInsert r m.name cls
      else r
  | none => r

/-- A sequence of subclass definitions, each firing `__init_subclass__` in
order. -/
def registerAll : Registry → List ToolClass → Registry
  | r, [] => r
  | r, cls :: rest => registerAll (initSubclass r cls) rest

/-- A candidate source file in the tools directory: its stem (file name
without `.py`) and the tool classes its module body defines, which register
themselves through `__init_subclass__` when the module is executed. -/
structure SourceFile where
  stem : String
  classes : List ToolClass

/-- The process state the discovery loader reads and writes: the set of
module names recorded in `sys.modules` and the `BaseTool.registry`. -/
structure LoaderState where
  sysModules : List String
  registry : Registry

/-- Processing of one candidate file by `ToolManager.load_tools`: files with
stem `__init__` or `base` are skipped; a file whose module name
(`tools.` + stem, with the default `tool_dir = "tools"`) is already in
`sys.modules` is skipped; otherwise the module is recorded in `sys.modules`
and executed, registering its tool classes. -/
def loadFile (st : LoaderState) (f : SourceFile) : LoaderState :=
  if f.stem = "__init__" ∨ f.stem = "base" then st
  else if ("tools." ++ f.stem) ∈ st.sysModules then st
  else ⟨st.sysModules ++ ["tools." ++ f.stem], registerAll st.registry f.classes⟩

/-- Embedding of `ToolManager.load_tools` from `src/core/tool_manager.py`:
fold `loadFile` over the files currently present in the tools directory, in
enumeration order.  The registry is never cleared by this operation. -/
def load_tools : List SourceFile → LoaderState → LoaderState
  | [], st => st
  | f :: rest, st => load_tools rest (loadFile st f)

/-- Observable events of one invocation, as seen by the caller: streamed
chunks followed by the terminal envelope. -/
inductive Event where
  | chunk (c : String)
  | final (e : Envelope)

/-- The event sequence a caller observes for one `execute` call: each chunk
is delivered through the streaming callback as soon as `_execute` produces
it (the callback is awaited inside `_execute`), and the envelope is returned
only after `_execute` has finished, so the trace is the chunks in emission
order followed by the final envelope. -/
def observedEvents (r : ExecResult) : List Event :=
  r.chunks.map Event.chunk ++ [Event.final r.envelope]

/-! Helper lemmas about the registry and the loader. -/

/-- Lookup after dict-assignment: the stored value at the assigned key, the
previous lookup elsewhere. -/
theorem alistLookup_insert {α : Type} (k : String) (t : α) (n : String)
    (l : List (String × α)) :
    alistLookup (alistInsert l k t) n = if n = k then some t else alistLookup l n := by
  induction l with
  | nil => simp [alistInsert, alistLookup, eq_comm]
  | cons hd tl ih =>
    obtain ⟨k0, v0⟩ := hd
    by_cases h0 : k0 = k
    · subst h0
      by_cases hn : k0 = n
      · subst hn
        simp [alistInsert, alistLookup]
      · simp [alistInsert, alistLookup, hn, Ne.symm hn]
    · by_cases hn : k0 = n
      · subst hn
        simp [alistInsert, alistLookup, h0, Ne.symm h0]
      · simp [alistInsert, alistLookup, h0, hn, ih]

/-- Registration of a class without a valid `ToolMeta` META leaves the
registry unchanged. -/
theorem initSubclass_no_meta (r : Registry) (cls : ToolClass)
    (h : clsMeta cls = none) : initSubclass r cls = r := by
  unfold initSubclass
  rw [h]

/-- Registration of a class with a `DISABLED` META leaves the registry
unchanged. -/
theorem initSubclass_disabled (r : Registry) (cls : ToolClass) (m : ToolMeta)
    (h : clsMeta cls = some m) (hd : m.access_level = AccessLevel.DISABLED) :
    initSubclass r cls = r := by
  unfold initSubclass
  rw [h]
  simp [hd]

/-- Registration of a class with a valid non-disabled META inserts it under
its declared name. -/
theorem initSubclass_active (r : Registry) (cls : ToolClass) (m : ToolMeta)
    (h : clsMeta cls = some m) (hd : m.access_level ≠ AccessLevel.DISABLED) :
    initSubclass r cls = registryInsert r m.name cls := by
  unfold initSubclass
  rw [h]
  simp [hd]

/-- Entry-wise invariant preservation across a sequence of subclass
registrations: if every entry of the starting registry carries a valid
non-disabled `ToolMeta`, the same holds after registering any list of
classes. -/
theorem registerAll_entries_valid (clss : List ToolClass) :
    ∀ r : Registry,
      (∀ n c, registryLookup r n = some c →
        ∃ m, clsMeta c = some m ∧ m.access_level ≠ AccessLevel.DISABLED) →
      ∀ n c, registryLookup (registerAll r clss) n = some c →
        ∃ m, clsMeta c = some m ∧ m.access_level ≠ AccessLevel.DISABLED := by
  induction clss with
  | nil => intro r hr; exact hr
  | cons cls rest ih =>
    intro r hr
    apply ih
    intro n c hc
    cases hm : clsMeta cls with
    | none =>
      rw [initSubclass_no_meta r cls hm] at hc
      exact hr n c hc
    | some m =>
      by_cases hd : m.access_level = AccessLevel.DISABLED
      · rw [initSubclass_disabled r cls m hm hd] at hc
        exact hr n c hc
      · rw [initSubclass_active r cls m hm hd] at hc
        rw [registryLookup, registryInsert, alistLookup_insert] at hc
        by_cases hn : n = m.name
        · rw [if_pos hn] at hc
          cases hc
          exact ⟨m, hm, hd⟩
        · rw [if_neg hn] at hc
          exact hr n c hc

/-- Names present in the registry stay present across a sequence of
registrations (nothing is ever removed, only added or overwritten). -/
theorem registerAll_retains (clss : List ToolClass) :
    ∀ (r : Registry) (n : String) (c : ToolClass),
      registryLookup r n = some c →
      ∃ c2, registryLookup (registerAll r clss) n = some c2 := by
  induction clss with
  | nil => exact fun r n c hc => ⟨c, hc⟩
  | cons cls rest ih =>
    intro r n c hc
    show ∃ c2, registryLookup (registerAll (initSubclass r cls) rest) n = some c2
    cases hm : clsMeta cls with
    | none =>
      rw [initSubclass_no_meta r cls hm]
      exact ih r n c hc
    | some m =>
      by_cases hd : m.access_level = AccessLevel.DISABLED
      · rw [initSubclass_disabled r cls m hm hd]
        exact ih r n c hc
      · rw [initSubclass_active r cls m hm hd]
        by_cases hn : n = m.name
        · apply ih (registryInsert r m.name cls) n cls
          rw [registryLookup, registryInsert, alistLookup_insert, if_pos hn]
        · apply ih (registryInsert r m.name cls) n c
          rw [registryLookup, registryInsert, alistLookup_insert, if_neg hn]
          exact hc

/-- Module names recorded in `sys.modules` survive the processing of one
file. -/
theorem mem_sysModules_loadFile (st : LoaderState) (f : SourceFile) (s : String)
    (h : s ∈ st.sysModules) : s ∈ (loadFile st f).sysModules := by
  unfold loadFile
  by_cases h1 : f.stem = "__init__" ∨ f.stem = "base"
  · rw [if_pos h1]; exact h
  · rw [if_neg h1]
    by_cases h2 : ("tools." ++ f.stem) ∈ st.sysModules
    · rw [if_pos h2]; exact h
    · rw [if_neg h2]
      exact List.mem_append_left _ h

/-- Module names recorded in `sys.modules` survive a whole discovery run. -/
theorem mem_sysModules_load_tools (files : List SourceFile) :
    ∀ (st : LoaderState) (s : String),
      s ∈ st.sysModules → s ∈ (load_tools files st).sysModules := by
  induction files with
  | nil => exact fun st s h => h
  | cons f rest ih =>
    intro st s h
    exact ih (loadFile st f) s (mem_sysModules_loadFile st f s h)

/-- Processing of a file whose module is already recorded (or whose stem is
reserved) leaves the loader state unchanged. -/
theorem loadFile_noop (st : LoaderState) (f : SourceFile)
    (h : ¬(f.stem = "__init__" ∨ f.stem = "base") →
      ("tools." ++ f.stem) ∈ st.sysModules) :
    loadFile st f = st := by
  simp only [loadFile]
  by_cases h1 : f.stem = "__init__" ∨ f.stem = "base"
  · rw [if_pos h1]
  · rw [if_neg h1, if_pos (h h1)]

/-- After a non-reserved file is processed, its module name is recorded in
`sys.modules`. -/
theorem loadFile_module_mem (st : LoaderState) (f : SourceFile)
    (h1 : ¬(f.stem = "__init__" ∨ f.stem = "base")) :
    ("tools." ++ f.stem) ∈ (loadFile st f).sysModules := by
  simp only [loadFile]
  rw [if_neg h1]
  by_cases h2 : ("tools." ++ f.stem) ∈ st.sysModules
  · rw [if_pos h2]
    exact h2
  · rw [if_neg h2]
    exact List.mem_append_right _ (by simp)

/-- After a discovery run, every non-reserved file of the directory has its
module name recorded in `sys.modules`. -/
theorem load_tools_module_mem (files : List SourceFile) :
    ∀ (st : LoaderState) (f : SourceFile), f ∈ files →
      ¬(f.stem = "__init__" ∨ f.stem = "base") →
      ("tools." ++ f.stem) ∈ (load_tools files st).sysModules := by
  induction files with
  | nil => intro st f hf; exact absurd hf (List.not_mem_nil f)
  | cons g rest ih =>
    intro st f hf hne
    rcases List.mem_cons.mp hf with rfl | hf2
    · exact mem_sysModules_load_tools rest (loadFile st f) _ (loadFile_module_mem st f hne)
    · exact ih (loadFile st g) f hf2 hne

/-- A discovery run over files whose modules are all already recorded in
`sys.modules` changes nothing. -/
theorem load_tools_noop (files : List SourceFile) :
    ∀ st : LoaderState,
      (∀ f ∈ files, ¬(f.stem = "__init__" ∨ f.stem = "base") →
        ("tools." ++ f.stem) ∈ st.sysModules) →
      load_tools files st = st := by
  induction files with
  | nil => intro st _; rfl
  | cons g rest ih =>
    intro st h
    have hg : loadFile st g = st := loadFile_noop st g (h g (List.mem_cons_self g rest))
    show load_tools rest (loadFile st g) = st
    rw [hg]
    exact ih st (fun f hf => h f (List.mem_cons_of_mem g hf))

/-- Registry names survive the processing of one file. -/
theorem loadFile_registry_retains (st : LoaderState) (f : SourceFile)
    (n : String) (c : ToolClass) (hc : registryLookup st.registry n = some c) :
    ∃ c2, registryLookup (loadFile st f).registry n = some c2 := by
  simp only [loadFile]
  by_cases h1 : f.stem = "__init__" ∨ f.stem = "base"
  · rw [if_pos h1]
    exact ⟨c, hc⟩
  · rw [if_neg h1]
    by_cases h2 : ("tools." ++ f.stem) ∈ st.sysModules
    · rw [if_pos h2]
      exact ⟨c, hc⟩
    · rw [if_neg h2]
      exact registerAll_retains f.classes st.registry n c hc

/-- Registry names survive a whole discovery run: `load_tools` never clears
the registry. -/
theorem load_tools_registry_retains (files : List SourceFile) :
    ∀ (st : LoaderState) (n : String) (c : ToolClass),
      registryLookup st.registry n = some c →
      ∃ c2, registryLookup (load_tools files st).registry n = some c2 := by
  induction files with
  | nil => exact fun st n c hc => ⟨c, hc⟩
  | cons g rest ih =>
    intro st n c hc
    obtain ⟨c2, hc2⟩ := loadFile_registry_retains st g n c hc
    exact ih (loadFile st g) n c2 hc2

/-! Concrete tools used by witnesses and counterexamples. -/

/-- Metadata of `SystemStatusTool` from `src/tools/example_tool.py`: no
parameter schema, access level `BOTH`. -/
def systemStatusMeta : ToolMeta :=
  { name := "system_status_check",
    description := "Gets the current status of the server system, like OS and Python version.",
    access_level := AccessLevel.BOTH }

/-- A parameter model requiring an integer field `count` (the spec's
end-to-end scenario with `count: integer`): validation succeeds exactly on
mappings whose `count` field is an integer, and the validated instance dumps
just that field. -/
def countParams : ParamModel :=
  { validate := fun kwargs =>
      match alistLookup kwargs "count" with
      | some (Value.int n) => Except.ok [("count", Value.int n)]
      | some _ => Except.error [⟨"count", "Input should be a valid integer"⟩]
      | none => Except.error [⟨"count", "Field required"⟩],
    json_schema := Value.obj [("count", Value.str "integer")] }

/-- Metadata of a tool with the `count` parameter schema. -/
def countMeta : ToolMeta :=
  { name := "count_tool",
    description := "A tool requiring an integer count.",
    parameters := some countParams }

/-- Metadata of a UI-only tool. -/
def uiOnlyMeta : ToolMeta :=
  { name := "ui_tool",
    description := "A UI-only tool.",
    access_level := AccessLevel.UI_ONLY }

/-- Metadata of a disabled tool. -/
def disabledMeta : ToolMeta :=
  { name := "disabled_tool",
    description := "A disabled tool.",
    access_level := AccessLevel.DISABLED }

/-- An implementation that raises immediately with description `boom`. -/
def boomImpl : Impl := fun _ => ([], Except.error "boom")

/-- An implementation that returns the keyword arguments it received, making
the fields passed to `_execute` observable in the envelope. -/
def echoImpl : Impl := fun kwargs => ([], Except.ok (Value.obj kwargs))

/-- An implementation that runs to completion and returns a marker value. -/
def okImpl : Impl := fun _ => ([], Except.ok (Value.str "ran"))

/-- A subclass carrying `systemStatusMeta`. -/
def statusCls : ToolClass :=
  { className := "SystemStatusTool",
    META := some (MetaAttr.toolMeta systemStatusMeta),
    impl := okImpl }

/-- A second subclass carrying the same META name as `statusCls` but a
different implementation. -/
def statusCls2 : ToolClass :=
  { className := "SystemStatusToolV2",
    META := some (MetaAttr.toolMeta systemStatusMeta),
    impl := boomImpl }

/-- A subclass with a `DISABLED` META. -/
def disabledCls : ToolClass :=
  { className := "DisabledTool",
    META := some (MetaAttr.toolMeta disabledMeta),
    impl := okImpl }

/-- A subclass of `BaseTool` without any `META` attribute. -/
def noMetaCls : ToolClass :=
  { className := "Broken", META := none, impl := okImpl }

/-- A subclass whose `META` attribute is not a `ToolMeta` instance. -/
def badMetaCls : ToolClass :=
  { className := "BadMeta",
    META := some (MetaAttr.other (Value.str "oops")),
    impl := okImpl }

/-- A source file in the tools directory defining `statusCls`. -/
def fileA : SourceFile := { stem := "example_tool", classes := [statusCls] }

/-- The loader state at process start: empty `sys.modules` record, empty
registry. -/
def emptyLoader : LoaderState := { sysModules := [], registry := [] }

/-- Schema attached to a declaration: `model_json_schema()` of the parameter
model when present, the empty schema otherwise. -/
def metaSchema : Option ParamModel → Value
  | some p => p.json_schema
  | none => Value.obj []

/-! Claim theorems. -/

/-- Claim C1: for every tool whose META is set, every input mapping and every
behaviour of `_execute` (returning or raising), `execute` never raises: it
always returns a success or error envelope, and any exception raised by
`_execute` — on the schema-less path or after successful validation — is
caught and converted into an error envelope carrying the exception's
description.  Totality of the embedded `execute` models "never raises". -/
theorem execute_never_raises (m : ToolMeta) (impl : Impl)
    (kwargs : List (String × Value)) :
    ((∃ v, (execute (some m) impl kwargs).envelope = Envelope.success v) ∨
      (∃ d, (execute (some m) impl kwargs).envelope = Envelope.error d)) ∧
    (∀ cs d, m.parameters = none → impl kwargs = (cs, Except.error d) →
      (execute (some m) impl kwargs).envelope = Envelope.error d) ∧
    (∀ p args cs d, m.parameters = some p → p.validate kwargs = Except.ok args →
      impl args = (cs, Except.error d) →
      (execute (some m) impl kwargs).envelope = Envelope.error d) := by
  refine ⟨?_, ?_, ?_⟩
  · cases h : (execute (some m) impl kwargs).envelope with
    | success v => exact Or.inl ⟨v, rfl⟩
    | error d => exact Or.inr ⟨d, rfl⟩
  · intro cs d hp himpl
    simp [execute, hp, himpl]
  · intro p args cs d hp hv himpl
    simp [execute, hp, hv, himpl]

/-- Witness for C1: a raising implementation is converted into an error
envelope on both the schema-less and the validated path. -/
theorem execute_never_raises_witness :
    (execute (some systemStatusMeta) boomImpl []).envelope = Envelope.error "boom" ∧
    (execute (some countMeta) boomImpl [("count", Value.int 3)]).envelope =
      Envelope.error "boom" :=
  ⟨(execute_never_raises systemStatusMeta boomImpl []).2.1 [] "boom" rfl rfl,
   (execute_never_raises countMeta boomImpl [("count", Value.int 3)]).2.2
     countParams [("count", Value.int 3)] [] "boom" rfl rfl rfl⟩

/-- Claim C2, counterexample: with an absent parameter schema the claim says
no fields from the input mapping are passed to `_execute`; but `execute`
calls `self._execute(**kwargs)`, so an echoing implementation observes and
returns the field `x` of the input mapping — the two calls below differ only
in the input mapping, and the field shows up in the envelope. -/
theorem execute_forwards_fields_cex :
    (execute (some systemStatusMeta) echoImpl [("x", Value.str "1")]).envelope =
      Envelope.success (Value.obj [("x", Value.str "1")]) ∧
    (execute (some systemStatusMeta) echoImpl []).envelope =
      Envelope.success (Value.obj []) :=
  ⟨rfl, rfl⟩

/-- Claim C2 as amended: when `META.parameters` is absent, every input
mapping is accepted (no validation is performed) and the whole input mapping
is passed unchanged to `_execute`, which is invoked exactly once. -/
theorem execute_no_schema_forwards (m : ToolMeta) (impl : Impl)
    (kwargs : List (String × Value)) (h : m.parameters = none) :
    execute (some m) impl kwargs =
      ExecResult.mk (impl kwargs).1
        (match (impl kwargs).2 with
          | Except.ok v => Envelope.success v
          | Except.error e => Envelope.error e) 1 := by
  simp only [execute, h]
  rcases himpl : impl kwargs with ⟨cs, res⟩
  cases res <;> simp [himpl]

/-- Witness for the amended C2: the echoing implementation receives the
field `x` and the result envelope carries it back. -/
theorem execute_no_schema_forwards_witness :
    execute (some systemStatusMeta) echoImpl [("x", Value.str "1")] =
      ExecResult.mk [] (Envelope.success (Value.obj [("x", Value.str "1")])) 1 :=
  execute_no_schema_forwards systemStatusMeta echoImpl [("x", Value.str "1")] rfl

/-- Claim C3: when the parameter schema is present and validation of the
input mapping fails with the enumerated field errors, `execute` returns an
error envelope whose message carries the rendered enumeration of those
field errors, no chunk is emitted, and `_execute` is never invoked
(call count 0). -/
theorem execute_invalid_params (m : ToolMeta) (p : ParamModel) (impl : Impl)
    (kwargs : List (String × Value)) (errs : List FieldError)
    (hp : m.parameters = some p) (hv : p.validate kwargs = Except.error errs) :
    execute (some m) impl kwargs =
      ExecResult.mk []
        (Envelope.error ("پارامترهای نامعتبر: " ++ fieldErrorsRepr errs)) 0 := by
  simp [execute, hp, hv]

/-- Witness for C3: the spec's scenario `count = "abc"` fails validation on
the field `count` and the implementation is never called. -/
theorem execute_invalid_params_witness :
    execute (some countMeta) boomImpl [("count", Value.str "abc")] =
      ExecResult.mk []
        (Envelope.error ("پارامترهای نامعتبر: " ++
          fieldErrorsRepr [⟨"count", "Input should be a valid integer"⟩])) 0 :=
  execute_invalid_params countMeta countParams boomImpl
    [("count", Value.str "abc")]
    [⟨"count", "Input should be a valid integer"⟩] rfl rfl

/-- Claim C4: registering a class whose META has `access_level = DISABLED`
leaves the registry unchanged, and after any sequence of subclass
registrations starting from the empty registry, every registered entry
carries a valid `ToolMeta` with a non-`DISABLED` access level. -/
theorem registry_never_disabled :
    (∀ (r : Registry) (cls : ToolClass) (m : ToolMeta),
      clsMeta cls = some m → m.access_level = AccessLevel.DISABLED →
      initSubclass r cls = r) ∧
    (∀ (clss : List ToolClass) (n : String) (c : ToolClass),
      registryLookup (registerAll [] clss) n = some c →
      ∃ m, clsMeta c = some m ∧ m.access_level ≠ AccessLevel.DISABLED) := by
  constructor
  · exact initSubclass_disabled
  · intro clss n c hc
    apply registerAll_entries_valid clss [] ?_ n c hc
    intro n0 c0 h0
    simp [registryLookup, alistLookup] at h0

/-- Witness for C4: registering the disabled tool changes nothing, and the
registered system-status entry has a valid non-disabled META. -/
theorem registry_never_disabled_witness :
    initSubclass [] disabledCls = [] ∧
    (∃ m, clsMeta statusCls = some m ∧ m.access_level ≠ AccessLevel.DISABLED) :=
  ⟨registry_never_disabled.1 [] disabledCls disabledMeta rfl rfl,
   registry_never_disabled.2 [statusCls] "system_status_check" statusCls rfl⟩

/-- Claim C5: two successive registrations of non-disabled classes carrying
the same META name never raise (the embedded registration is a total
function) and leave the registry mapping that name to exactly the second
class, while lookups under any other name are unchanged. -/
theorem register_same_name_last_wins
    (r : Registry) (c1 c2 : ToolClass) (m1 m2 : ToolMeta)
    (h1 : clsMeta c1 = some m1) (h2 : clsMeta c2 = some m2)
    (hname : m1.name = m2.name)
    (hd1 : m1.access_level ≠ AccessLevel.DISABLED)
    (hd2 : m2.access_level ≠ AccessLevel.DISABLED) :
    registryLookup (initSubclass (initSubclass r c1) c2) m2.name = some c2 ∧
    ∀ n, n ≠ m2.name →
      registryLookup (initSubclass (initSubclass r c1) c2) n = registryLookup r n := by
  rw [initSubclass_active r c1 m1 h1 hd1, initSubclass_active _ c2 m2 h2 hd2]
  constructor
  · simp only [registryLookup, registryInsert]
    rw [alistLookup_insert, if_pos rfl]
  · intro n hn
    have hn1 : n ≠ m1.name := fun h => hn (h.trans hname)
    simp only [registryLookup, registryInsert]
    rw [alistLookup_insert, if_neg hn, alistLookup_insert, if_neg hn1]

/-- Witness for C5: re-registering under `system_status_check` leaves the
second class, other names are untouched. -/
theorem register_same_name_last_wins_witness :
    registryLookup (initSubclass (initSubclass [] statusCls) statusCls2)
      "system_status_check" = some statusCls2 ∧
    registryLookup (initSubclass (initSubclass [] statusCls) statusCls2)
      "other" = registryLookup [] "other" := by
  have h := register_same_name_last_wins [] statusCls statusCls2
    systemStatusMeta systemStatusMeta rfl rfl rfl (by decide) (by decide)
  exact ⟨h.1, h.2 "other" (by decide)⟩

/-- Claim C6: `get_declaration` produces the declaration triple
`(name, description, schema)` exactly for `AI_ONLY` and `BOTH` entries, no
declaration for `UI_ONLY` and `DISABLED` entries, and when the parameter
model is absent the exported declaration carries the empty schema. -/
theorem get_declaration_ai_projection (m : ToolMeta) :
    ((m.access_level = AccessLevel.AI_ONLY ∨ m.access_level = AccessLevel.BOTH) →
      get_declaration (some m) =
        Except.ok (some ⟨m.name, m.description, metaSchema m.parameters⟩)) ∧
    ((m.access_level = AccessLevel.UI_ONLY ∨ m.access_level = AccessLevel.DISABLED) →
      get_declaration (some m) = Except.ok none) ∧
    (m.parameters = none →
      (m.access_level = AccessLevel.AI_ONLY ∨ m.access_level = AccessLevel.BOTH) →
      get_declaration (some m) =
        Except.ok (some ⟨m.name, m.description, Value.obj []⟩)) := by
  refine ⟨?_, ?_, ?_⟩
  · intro h
    have hne : ¬(m.access_level = AccessLevel.UI_ONLY ∨
        m.access_level = AccessLevel.DISABLED) := by
      rcases h with h | h <;> simp [h]
    simp only [get_declaration, if_neg hne]
    cases hp : m.parameters <;> simp [metaSchema, hp]
  · intro h
    simp only [get_declaration, if_pos h]
  · intro hp h
    have hne : ¬(m.access_level = AccessLevel.UI_ONLY ∨
        m.access_level = AccessLevel.DISABLED) := by
      rcases h with h | h <;> simp [h]
    simp only [get_declaration, if_neg hne, hp]

/-- Witness for C6: the AI-only count tool is exported with its schema, the
UI-only tool is not exported, and the schema-less BOTH tool is exported with
the empty schema. -/
theorem get_declaration_ai_projection_witness :
    get_declaration (some countMeta) =
      Except.ok (some ⟨countMeta.name, countMeta.description,
        metaSchema countMeta.parameters⟩) ∧
    get_declaration (some uiOnlyMeta) = Except.ok none ∧
    get_declaration (some systemStatusMeta) =
      Except.ok (some ⟨systemStatusMeta.name, systemStatusMeta.description,
        Value.obj []⟩) :=
  ⟨(get_declaration_ai_projection countMeta).1 (Or.inl rfl),
   (get_declaration_ai_projection uiOnlyMeta).2.1 (Or.inl rfl),
   (get_declaration_ai_projection systemStatusMeta).2.2 rfl (Or.inr rfl)⟩

/-- Claim C7, counterexample: the claim says an AI-originated call on a
`UI_ONLY` tool yields an access-denied error envelope and the implementation
is not executed; but `execute` — the only invocation path, which does not
even receive an origin — runs the implementation of the `UI_ONLY` tool and
returns its success envelope, with one `_execute` call. -/
theorem execute_ignores_access_level_cex :
    (execute (some uiOnlyMeta) okImpl []).envelope =
      Envelope.success (Value.str "ran") ∧
    (execute (some uiOnlyMeta) okImpl []).implCalls = 1 :=
  ⟨rfl, rfl⟩

/-- Claim C7 as amended: `execute` performs no access-level check — its
result is independent of the declared access level, for calls of any origin;
eligibility is only reported by the `is_ai_enabled` predicate (true exactly
for `AI_ONLY` and `BOTH` with META set), and a `UI_ONLY` tool is excluded
from the AI declaration export. -/
theorem execute_no_access_check :
    (∀ (m : ToolMeta) (impl : Impl) (kwargs : List (String × Value))
        (a : AccessLevel),
      execute (some m) impl kwargs =
        execute (some { m with access_level := a }) impl kwargs) ∧
    (∀ meta? : Option ToolMeta, is_ai_enabled meta? = true ↔
      ∃ m, meta? = some m ∧
        (m.access_level = AccessLevel.AI_ONLY ∨
          m.access_level = AccessLevel.BOTH)) ∧
    (∀ m : ToolMeta, m.access_level = AccessLevel.UI_ONLY →
      get_declaration (some m) = Except.ok none) := by
  refine ⟨?_, ?_, ?_⟩
  · intro m impl kwargs a
    rfl
  · intro meta?
    cases meta? with
    | none => simp [is_ai_enabled]
    | some m => cases hm : m.access_level <;> simp [is_ai_enabled, hm]
  · intro m h
    simp [get_declaration, h]

/-- Witness for the amended C7: the UI-only tool executes identically under
any access level, the BOTH tool is AI-enabled, and the UI-only tool is
absent from the declaration export. -/
theorem execute_no_access_check_witness :
    execute (some uiOnlyMeta) okImpl [] =
      execute (some { uiOnlyMeta with access_level := AccessLevel.AI_ONLY })
        okImpl [] ∧
    (is_ai_enabled (some systemStatusMeta) = true ↔
      ∃ m, some systemStatusMeta = some m ∧
        (m.access_level = AccessLevel.AI_ONLY ∨
          m.access_level = AccessLevel.BOTH)) ∧
    get_declaration (some uiOnlyMeta) = Except.ok none :=
  ⟨execute_no_access_check.1 uiOnlyMeta okImpl [] AccessLevel.AI_ONLY,
   execute_no_access_check.2.1 (some systemStatusMeta),
   execute_no_access_check.2.2 uiOnlyMeta rfl⟩

/-- Claim C8, counterexample: a first discovery run over a directory with
one tool file registers the tool; a second run over the directory after the
file was removed — so the sources present at re-run time register nothing —
retains the stale entry instead of resetting, while a fresh run over the
same (now empty) directory yields no such entry. -/
theorem load_tools_no_reset_cex :
    registryLookup (load_tools [] (load_tools [fileA] emptyLoader)).registry
      "system_status_check" = some statusCls ∧
    registryLookup (load_tools [] emptyLoader).registry
      "system_status_check" = none :=
  ⟨rfl, rfl⟩

/-- Claim C8 as amended: re-running `load_tools` performs no reset at all —
modules already recorded in `sys.modules` are skipped, so an immediate
second run over the same directory is a no-op (idempotence), and entries
present in the registry before a run are always retained under their name
(nothing is ever cleared). -/
theorem load_tools_rerun_noop :
    (∀ (files : List SourceFile) (st : LoaderState),
      load_tools files (load_tools files st) = load_tools files st) ∧
    (∀ (files : List SourceFile) (st : LoaderState) (n : String) (c : ToolClass),
      registryLookup st.registry n = some c →
      ∃ c2, registryLookup (load_tools files st).registry n = some c2) := by
  constructor
  · intro files st
    exact load_tools_noop files (load_tools files st)
      (fun f hf hne => load_tools_module_mem files st f hf hne)
  · intro files st n c hc
    exact load_tools_registry_retains files st n c hc

/-- Witness for the amended C8: re-running discovery over the one-file
directory changes nothing, and the registered entry survives a further
run. -/
theorem load_tools_rerun_noop_witness :
    load_tools [fileA] (load_tools [fileA] emptyLoader) =
      load_tools [fileA] emptyLoader ∧
    ∃ c2, registryLookup
      (load_tools [fileA] (load_tools [fileA] emptyLoader)).registry
      "system_status_check" = some c2 :=
  ⟨load_tools_rerun_noop.1 [fileA] emptyLoader,
   load_tools_rerun_noop.2 [fileA] (load_tools [fileA] emptyLoader)
     "system_status_check" statusCls rfl⟩

/-- Claim C9: for one invocation of a schema-less tool whose implementation
emits the chunks `c1, c2, c3` through the streaming sink and returns `R`,
the caller observes exactly `c1, c2, c3` in emission order followed strictly
afterwards by the success envelope carrying `R`; no chunk follows the final
envelope and none is reordered. -/
theorem streaming_order (m : ToolMeta) (kwargs : List (String × Value))
    (c1 c2 c3 : String) (R : Value) (h : m.parameters = none) :
    observedEvents (execute (some m)
        (fun _ => ([c1, c2, c3], Except.ok R)) kwargs) =
      [Event.chunk c1, Event.chunk c2, Event.chunk c3,
        Event.final (Envelope.success R)] := by
  simp [execute, h, observedEvents]

/-- Witness for C9: three concrete chunks and a concrete result on the
system-status tool. -/
theorem streaming_order_witness :
    observedEvents (execute (some systemStatusMeta)
        (fun _ => (["a", "b", "c"], Except.ok (Value.str "R"))) []) =
      [Event.chunk "a", Event.chunk "b", Event.chunk "c",
        Event.final (Envelope.success (Value.str "R"))] :=
  streaming_order systemStatusMeta [] "a" "b" "c" (Value.str "R") rfl

/-- Claim C10: a subclass lacking a `META` attribute that is a `ToolMeta`
instance is never inserted by the registration hook, so after any sequence
of subclass definitions starting from the empty registry every registered
value carries a well-formed `ToolMeta`. -/
theorem registry_requires_valid_meta :
    (∀ (r : Registry) (cls : ToolClass), clsMeta cls = none →
      initSubclass r cls = r) ∧
    (∀ (clss : List ToolClass) (n : String) (c : ToolClass),
      registryLookup (registerAll [] clss) n = some c →
      ∃ m, clsMeta c = some m) := by
  constructor
  · exact initSubclass_no_meta
  · intro clss n c hc
    obtain ⟨m, hm, _⟩ := registerAll_entries_valid clss []
      (by intro n0 c0 h0; simp [registryLookup, alistLookup] at h0) n c hc
    exact ⟨m, hm⟩

/-- Witness for C10: a class without a META attribute and a class whose META
is not a `ToolMeta` instance both leave the registry unchanged, while the
registered system-status entry carries a well-formed META. -/
theorem registry_requires_valid_meta_witness :
    initSubclass [] noMetaCls = [] ∧
    initSubclass [] badMetaCls = [] ∧
    (∃ m, clsMeta statusCls = some m) :=
  ⟨registry_requires_valid_meta.1 [] noMetaCls rfl,
   registry_requires_valid_meta.1 [] badMetaCls rfl,
   registry_requires_valid_meta.2 [statusCls] "system_status_check" statusCls rfl⟩
